import Mathlib

/-!
Shallow embedding of `pybind11_generics::List<T>` (src/include/pybind11_generics/list.h),
a statically-typed facade over a CPython list handle.

The underlying dynamic list is modelled as a Lean `List PyObj`; the host runtime's
primitives (`PyList_GetItem`, `PyList_Check`, the list append primitive) and the
casting layer (`cast_from_handle`, declared in the repository's
`cast_input_iterator.h`, which is not part of the sources here) are modelled from
the specification's description of those collaborators.  Errors are modelled as
values of `PyErr` carried in `Except`, standing for the host runtime's pending
error state / raised exception.
-/

/-- The error taxonomy of the specification (§7): index errors, cast errors and
host-runtime operation failures. -/
inductive PyErr where
  | IndexAccessError
  | TypeConversionError
  | RuntimeOperationError
deriving DecidableEq, Repr

/-- A dynamic (Python) runtime value: enough of the object model for the claims —
integers, strings, lists and a non-list atom standing for any other object. -/
inductive PyObj where
  | int (n : Int)
  | str (s : String)
  | list (xs : List PyObj)
  | pyNone

/-- Modelled from the spec: the casting layer (`cast_from_handle<T>` of the
repository's `cast_input_iterator.h`, not among the sources) converts a dynamic
handle to a `T` value and "may fail with a TypeConversionError if the underlying
value's dynamic type is incompatible with `T`".  A caster bundles the two
directions `cast(handle) -> T` and `to_handle(value) -> handle` of §6. -/
structure Caster (α : Type) where
  cast : PyObj → Except PyErr α
  toHandle : α → Except PyErr PyObj

/-- The concrete casting layer for `T = int`: an `int` object converts to its
value, anything else is incompatible and fails with `TypeConversionError`. -/
def castInt : PyObj → Except PyErr Int
  | .int n => .ok n
  | _ => .error .TypeConversionError

/-- The `T = int` caster: `cast` is `castInt`, `to_handle` wraps into an
`int` object (conversion of a native int never fails). -/
def intCaster : Caster Int := ⟨castInt, fun n => .ok (.int n)⟩

/-- A caster is well formed when, per the spec, either direction fails only
with `TypeConversionError`. -/
def Caster.WellFormed (C : Caster α) : Prop :=
  (∀ o e, C.cast o = .error e → e = .TypeConversionError) ∧
  (∀ v e, C.toHandle v = .error e → e = .TypeConversionError)

/-- The conversion `static_cast<ssize_t>(index)` applied to a `size_t` value (a natural number
below `2^64`): two's-complement reinterpretation into a signed 64-bit integer. -/
def toSSize (i : Nat) : Int :=
  if i < 2 ^ 63 then (i : Int) else (i : Int) - 2 ^ 64

/-- Modelled from the spec: the host runtime's raw indexed retrieval
(`PyList_GetItem`).  The position must be non-negative and below the length;
otherwise the primitive fails, leaving an index error pending on the runtime
("If retrieval fails (index out of range, or any host-runtime-level retrieval
failure), the operation fails with an IndexAccessError"). -/
def pyList_GetItem (xs : List PyObj) (i : Int) : Except PyErr PyObj :=
  if h : 0 ≤ i ∧ i < (xs.length : Int) then .ok (xs.get ⟨i.toNat, by omega⟩)
  else .error .IndexAccessError

/-- The indexed read `List<T>::operator[]` (list.h lines 23–29): fetch the raw element with
`PyList_GetItem(ptr(), static_cast<ssize_t>(index))`; on a null result re-raise
the pending runtime error (`throw py::error_already_set()`); otherwise pass the
raw handle through the casting layer (`cast_from_handle<value_type>`). -/
def indexed_get (cast : PyObj → Except PyErr α) (xs : List PyObj) (index : Nat) :
    Except PyErr α :=
  match pyList_GetItem xs (toSSize index) with
  | .error e => .error e
  | .ok h => cast h

/-- Modelled from the spec: the host list's own append primitive.  Normally it
appends at the end; it may itself fail "independent of typing (e.g., allocation
failure)", which propagates as a `RuntimeOperationError`.  The boolean input
selects whether the primitive fails on this call. -/
def pyList_Append (fails : Bool) (xs : List PyObj) (h : PyObj) :
    Except PyErr (List PyObj) :=
  if fails then .error .RuntimeOperationError else .ok (xs ++ [h])

/-- The mutation `List<T>::append` (list.h line 32): convert the native value to a dynamic
handle through the casting layer, then hand it to the host list's append
primitive (`list_base::append<value_type>`); either failure propagates
unchanged. -/
def append (C : Caster α) (fails : Bool) (xs : List PyObj) (v : α) :
    Except PyErr (List PyObj) :=
  match C.toHandle v with
  | .error e => .error e
  | .ok h => pyList_Append fails xs h

/-- A full traversal from `begin()` to `end()` with the casting iterator
(`cast_input_iterator`, declared in the repository's `cast_input_iterator.h`,
not among the sources; modelled from the spec: each dereference "applies the
same casting-layer conversion to `T` as `indexed_get`", failing at the point
the offending element is dereferenced).  The result is the list of elements
yielded before any failure, paired with the failure if one occurred. -/
def iterate (cast : PyObj → Except PyErr α) : List PyObj → List α × Option PyErr
  | [] => ([], none)
  | o :: rest =>
    match cast o with
    | .error e => ([], some e)
    | .ok a =>
      let p := iterate cast rest
      (a :: p.1, p.2)

/-- Modelled from the spec: the inherited base-container shape check
(`using list_base::check_`, i.e. `py::list::check_`, a `PyList_Check`): true
exactly when the outer shape of the dynamic value is a list; it never inspects
elements. -/
def check_ : PyObj → Bool
  | .list _ => true
  | _ => false

/-- Compile-time type tags with a registered type descriptor: the base cases
come from the external registry; `tList` is the repository's `List<T>`. -/
inductive TypeTag where
  | tInt
  | tStr
  | tList (t : TypeTag)
deriving DecidableEq, Repr

/-- Descriptors: `handle_type_name` (list.h lines 40–42 for the `tList` case:
`_("List[") + handle_type_name<T>::name() + _("]")`; the base descriptors are
the external registry's, modelled from the spec). -/
def handle_type_name : TypeTag → String
  | .tInt => "int"
  | .tStr => "str"
  | .tList t => "List[" ++ handle_type_name t ++ "]"

/-! ## Helper lemmas (shared) -/

/-- For an index below the length (and representable as a non-negative
`ssize_t`), the raw retrieval returns the stored element. -/
theorem pyList_GetItem_lt (xs : List PyObj) (j : Nat) (hj : j < xs.length) :
    pyList_GetItem xs (j : Int) = .ok (xs.get ⟨j, hj⟩) := by
  simp [pyList_GetItem, hj]

/-- Raw retrieval fails with the index error whenever the signed position is
out of `[0, len)`. -/
theorem pyList_GetItem_oob (xs : List PyObj) (i : Int)
    (h : ¬(0 ≤ i ∧ i < (xs.length : Int))) :
    pyList_GetItem xs i = .error .IndexAccessError := by
  simp [pyList_GetItem, h]

/-- Below `2^63`, `toSSize` is the identity. -/
theorem toSSize_small (i : Nat) (h : i < 2 ^ 63) : toSSize i = (i : Int) := by
  unfold toSSize
  rw [if_pos h]

/-- On `[2^63, 2^64)`, `toSSize` is negative. -/
theorem toSSize_neg (i : Nat) (h63 : 2 ^ 63 ≤ i) (h64 : i < 2 ^ 64) :
    toSSize i < 0 := by
  simp only [toSSize, if_neg (by omega : ¬ i < 2 ^ 63)]
  omega

/-- A raw-retrieval failure is propagated unchanged by `operator[]`. -/
theorem indexed_get_err (cast : PyObj → Except PyErr α) (xs : List PyObj)
    (i : Nat) (e : PyErr) (hget : pyList_GetItem xs (toSSize i) = .error e) :
    indexed_get cast xs i = .error e := by
  unfold indexed_get
  rw [hget]

/-- A successfully retrieved raw element is handed to the caster by `operator[]`. -/
theorem indexed_get_ok (cast : PyObj → Except PyErr α) (xs : List PyObj)
    (i : Nat) (o : PyObj) (hget : pyList_GetItem xs (toSSize i) = .ok o) :
    indexed_get cast xs i = cast o := by
  unfold indexed_get
  rw [hget]

/-- In range, `operator[]` is the caster applied to the stored element. -/
theorem indexed_get_in_range (cast : PyObj → Except PyErr α) (xs : List PyObj)
    (j : Nat) (hj : j < xs.length) (h63 : j < 2 ^ 63) :
    indexed_get cast xs j = cast (xs.get ⟨j, hj⟩) :=
  indexed_get_ok cast xs j _ (by rw [toSSize_small j h63]; exact pyList_GetItem_lt xs j hj)

/-- Out of range (as a `size_t` value), `operator[]` fails with the index
error: for positions at or above the length, and also for positions whose
`ssize_t` reinterpretation is negative. -/
theorem indexed_get_oob (cast : PyObj → Except PyErr α) (xs : List PyObj)
    (i : Nat) (h64 : i < 2 ^ 64) (hlen : xs.length ≤ i) :
    indexed_get cast xs i = .error .IndexAccessError := by
  refine indexed_get_err cast xs i _ (pyList_GetItem_oob xs _ ?_)
  unfold toSSize
  split <;> omega

/-- The `int` caster is well formed. -/
theorem intCaster_wf : Caster.WellFormed intCaster := by
  constructor
  · intro o e h
    cases o <;> simp_all [intCaster, castInt]
  · intro v e h
    simp [intCaster] at h

/-! ## Claim theorems -/

/-- C1: for every index `i` in `[0, len)` of the underlying list (an index a
`size_t` caller can pass for an existing element, hence also below `2^63`),
`operator[]` returns exactly the stored element at `i` converted to `T`
(`T = int` here): the outcome is the caster applied to that element alone, it
succeeds with the stored value when the element's dynamic type is compatible,
and it fails with `TypeConversionError` exactly when it is not; no default
value is ever substituted and no other element is inspected. -/
theorem indexed_get_valid_index_spec (xs : List PyObj) (i : Nat)
    (hi : i < xs.length) (h63 : i < 2 ^ 63) :
    indexed_get castInt xs i = castInt (xs.get ⟨i, hi⟩) ∧
    (∀ n, xs.get ⟨i, hi⟩ = .int n → indexed_get castInt xs i = .ok n) ∧
    ((∃ n, xs.get ⟨i, hi⟩ = .int n) ∨
      indexed_get castInt xs i = .error .TypeConversionError) ∧
    (indexed_get castInt xs i = .error .TypeConversionError →
      ∀ n, xs.get ⟨i, hi⟩ ≠ .int n) := by
  have key := indexed_get_in_range castInt xs i hi h63
  refine ⟨key, ?_, ?_, ?_⟩
  · intro n hn
    rw [key, hn]
    rfl
  · rcases hO : xs.get ⟨i, hi⟩ with n | s | l | _
    · exact Or.inl ⟨n, rfl⟩
    all_goals exact Or.inr (by rw [key, hO]; rfl)
  · intro h n hn
    rw [key, hn] at h
    exact absurd h (by simp [castInt])

/-- Witness for C1: on the list `[7, "x"]` with `T = int`, reading index 0
succeeds with the stored value 7. -/
theorem indexed_get_valid_index_witness :
    indexed_get castInt [PyObj.int 7, PyObj.str "x"] 0 = .ok 7 :=
  (indexed_get_valid_index_spec [PyObj.int 7, PyObj.str "x"] 0 (by decide)
    (by decide)).2.1 7 rfl

/-- C2: for every `size_t` index at or above the length, `operator[]` fails
with `IndexAccessError` and never returns a value; the error the raw retrieval
left pending is re-raised unchanged, not wrapped or masked. -/
theorem indexed_get_oob_spec (cast : PyObj → Except PyErr α) (xs : List PyObj)
    (i : Nat) (h64 : i < 2 ^ 64) (hlen : xs.length ≤ i) :
    pyList_GetItem xs (toSSize i) = .error .IndexAccessError ∧
    indexed_get cast xs i = .error .IndexAccessError ∧
    (∀ v, indexed_get cast xs i ≠ .ok v) ∧
    (∀ e, pyList_GetItem xs (toSSize i) = .error e →
      indexed_get cast xs i = .error e) := by
  have hraw : pyList_GetItem xs (toSSize i) = .error .IndexAccessError := by
    apply pyList_GetItem_oob
    unfold toSSize
    split <;> omega
  have hprop := indexed_get_err cast xs i _ hraw
  refine ⟨hraw, hprop, ?_, fun e he => indexed_get_err cast xs i e he⟩
  intro v hv
  rw [hprop] at hv
  exact absurd hv (by simp)

/-- Witness for C2: reading index 5 of the one-element list `[1]` fails with
`IndexAccessError`. -/
theorem indexed_get_oob_witness :
    indexed_get castInt [PyObj.int 1] 5 = .error .IndexAccessError :=
  (indexed_get_oob_spec castInt [PyObj.int 1] 5 (by decide) (by decide)).2.1

/-- C10: `operator[]` takes an unsigned index and never performs
negative-index wraparound: every `size_t` argument at or above the length —
including those at or above `2^63`, whose `static_cast<ssize_t>` is negative —
fails with `IndexAccessError` and never yields an element counted from the end
of the list. -/
theorem indexed_get_no_wraparound_spec (cast : PyObj → Except PyErr α)
    (xs : List PyObj) (i : Nat) (h64 : i < 2 ^ 64) (hlen : xs.length ≤ i) :
    indexed_get cast xs i = .error .IndexAccessError ∧
    (∀ v, indexed_get cast xs i ≠ .ok v) ∧
    (2 ^ 63 ≤ i → toSSize i < 0 ∧
      indexed_get cast xs i = .error .IndexAccessError) := by
  have hres := indexed_get_oob cast xs i h64 hlen
  refine ⟨hres, ?_, fun hbig => ⟨toSSize_neg i hbig h64, hres⟩⟩
  intro v hv
  rw [hres] at hv
  exact absurd hv (by simp)

/-- Witness for C10: on the list `[1, 2]`, the index `2^64 - 1` (which a
signed reinterpretation would read as `-1`, i.e. the last element) fails with
`IndexAccessError` instead of returning the final element. -/
theorem indexed_get_no_wraparound_witness :
    indexed_get castInt [PyObj.int 1, PyObj.int 2] (2 ^ 64 - 1) =
      .error .IndexAccessError ∧ toSSize (2 ^ 64 - 1) < 0 :=
  ⟨(indexed_get_no_wraparound_spec castInt [PyObj.int 1, PyObj.int 2]
      (2 ^ 64 - 1) (by decide) (by decide)).1,
   ((indexed_get_no_wraparound_spec castInt [PyObj.int 1, PyObj.int 2]
      (2 ^ 64 - 1) (by decide) (by decide)).2.2 (by decide)).1⟩

/-- C5: the type descriptor of the view is `"List[" ++ descriptor(T) ++ "]"`
for every registered element tag `T`, and the composition nests:
`List<List<int>>` has descriptor `"List[List[int]]"`. -/
theorem type_descriptor_spec :
    (∀ t : TypeTag,
      handle_type_name (.tList t) = "List[" ++ handle_type_name t ++ "]") ∧
    handle_type_name (.tList (.tList .tInt)) = "List[List[int]]" :=
  ⟨fun _ => rfl, rfl⟩

/-- C6: the inherited shape check returns true exactly on values whose outer
shape is a list — regardless of the elements, which it never inspects — and
false on every non-list value. -/
theorem check_shape_spec (v : PyObj) :
    (check_ v = true ↔ ∃ xs, v = .list xs) ∧
    (∀ ys : List PyObj, check_ (.list ys) = true) ∧
    (check_ v = false ↔ ∀ xs : List PyObj, v ≠ .list xs) := by
  cases v with
  | list xs =>
    refine ⟨by simp [check_], fun ys => rfl, ?_⟩
    simp only [check_]
    constructor
    · intro h
      exact absurd h (by simp)
    · intro h
      exact absurd rfl (h xs)
  | int n => exact ⟨by simp [check_], fun ys => rfl, by simp [check_]⟩
  | str s => exact ⟨by simp [check_], fun ys => rfl, by simp [check_]⟩
  | pyNone => exact ⟨by simp [check_], fun ys => rfl, by simp [check_]⟩

/-- Witness for C6: a list whose single element is incompatible with `int`
still matches, and a non-list value does not. -/
theorem check_shape_witness :
    check_ (PyObj.list [PyObj.str "x"]) = true ∧ check_ (PyObj.int 3) = false :=
  ⟨(check_shape_spec (PyObj.list [PyObj.str "x"])).2.1 [PyObj.str "x"],
   ((check_shape_spec (PyObj.int 3)).2.2).mpr fun _ h => PyObj.noConfusion h⟩

/-- The read `operator[]` at an in-range index, seen through `getElem?`. -/
theorem indexed_get_getElem (cast : PyObj → Except PyErr α) (xs : List PyObj)
    (j : Nat) (o : PyObj) (ho : xs[j]? = some o) (h63 : j < 2 ^ 63) :
    indexed_get cast xs j = cast o := by
  have hj : j < xs.length := (List.getElem?_eq_some.mp ho).1
  rw [indexed_get_in_range cast xs j hj h63]
  have hget : xs.get ⟨j, hj⟩ = o := by
    have := (List.getElem?_eq_some.mp ho).2
    simpa [List.get_eq_getElem] using this
  rw [hget]

/-- C3: the round-trip law.  For any element type whose caster sends the value
`v` to a handle that converts back to `v` (`T`'s equality is Lean equality
here), a successful `append(v)` is followed by `indexed_get(len - 1)`
succeeding with a value equal to `v`, where `len` is the new length. -/
theorem append_roundtrip_spec (C : Caster α) (xs : List PyObj) (v : α)
    (h : PyObj) (hto : C.toHandle v = .ok h) (hcast : C.cast h = .ok v)
    (hlen : xs.length < 2 ^ 63) :
    ∃ ys, append C false xs v = .ok ys ∧ ys.length = xs.length + 1 ∧
      indexed_get C.cast ys (ys.length - 1) = .ok v := by
  refine ⟨xs ++ [h], ?_, by simp, ?_⟩
  · unfold append
    rw [hto]
    rfl
  · have hlast : (xs ++ [h])[(xs ++ [h]).length - 1]? = some h := by simp
    rw [indexed_get_getElem C.cast (xs ++ [h]) _ h hlast (by simp; omega)]
    exact hcast

/-- Witness for C3: appending `5` to `[1]` with `T = int` and reading back the
last index returns `5`. -/
theorem append_roundtrip_witness :
    ∃ ys, append intCaster false [PyObj.int 1] 5 = .ok ys ∧
      ys.length = ([PyObj.int 1] : List PyObj).length + 1 ∧
      indexed_get intCaster.cast ys (ys.length - 1) = .ok 5 :=
  append_roundtrip_spec intCaster [PyObj.int 1] 5 (PyObj.int 5) rfl rfl
    (by decide)

/-- C7: a successful `append(v)` appends the converted handle at the end: the
length grows by exactly one, the new element sits at the final index, and
every previously existing index reads the same element as before, in the same
order. -/
theorem append_frame_spec (C : Caster α) (fails : Bool) (xs ys : List PyObj)
    (v : α) (hok : append C fails xs v = .ok ys) :
    ∃ h, C.toHandle v = .ok h ∧ ys = xs ++ [h] ∧
      ys.length = xs.length + 1 ∧ ys[xs.length]? = some h ∧
      ∀ j, j < xs.length → ys[j]? = xs[j]? := by
  unfold append at hok
  split at hok
  · exact absurd hok (by simp)
  · rename_i h hto
    unfold pyList_Append at hok
    split at hok
    · exact absurd hok (by simp)
    · have hys : ys = xs ++ [h] := by
        injection hok with hh
        exact hh.symm
      subst hys
      refine ⟨h, hto, rfl, by simp, by simp, ?_⟩
      intro j hj
      rw [List.getElem?_append, if_pos hj]

/-- Witness for C7: appending `2` to `[1]` yields `[1, 2]`, one longer, with
the old element unchanged at index 0. -/
theorem append_frame_witness :
    ∃ h, intCaster.toHandle 2 = .ok h ∧
      ([PyObj.int 1, PyObj.int 2] : List PyObj) = [PyObj.int 1] ++ [h] ∧
      ([PyObj.int 1, PyObj.int 2] : List PyObj).length =
        ([PyObj.int 1] : List PyObj).length + 1 ∧
      ([PyObj.int 1, PyObj.int 2] :
        List PyObj)[([PyObj.int 1] : List PyObj).length]? = some h ∧
      ∀ j, j < ([PyObj.int 1] : List PyObj).length →
        ([PyObj.int 1, PyObj.int 2] : List PyObj)[j]? =
          ([PyObj.int 1] : List PyObj)[j]? :=
  append_frame_spec intCaster false [PyObj.int 1] [PyObj.int 1, PyObj.int 2]
    2 rfl

/-- C8: for a well-formed caster, `append` fails with `TypeConversionError`
exactly when the conversion of the value to a dynamic handle fails, and with
`RuntimeOperationError` exactly when the conversion succeeds but the host
append primitive itself fails; the error is the operation's result (the
ambient error channel), not a return code. -/
theorem append_error_spec (C : Caster α) (hwf : Caster.WellFormed C)
    (fails : Bool) (xs : List PyObj) (v : α) :
    (append C fails xs v = .error .TypeConversionError ↔
      ∃ e, C.toHandle v = .error e) ∧
    (append C fails xs v = .error .RuntimeOperationError ↔
      (∃ h, C.toHandle v = .ok h) ∧ fails = true) := by
  rcases hto : C.toHandle v with e | h
  · have he : e = .TypeConversionError := hwf.2 v e hto
    subst he
    have ha : append C fails xs v = .error .TypeConversionError := by
      unfold append
      rw [hto]
    refine ⟨⟨fun _ => ⟨_, rfl⟩, fun _ => ha⟩, ?_, ?_⟩
    · intro hco
      rw [ha] at hco
      simp at hco
    · rintro ⟨⟨h, hh⟩, -⟩
      simp at hh
  · have ha : append C fails xs v = pyList_Append fails xs h := by
      unfold append
      rw [hto]
    cases fails with
    | true =>
      have hres : append C true xs v = .error .RuntimeOperationError := by
        rw [ha]
        rfl
      refine ⟨⟨?_, ?_⟩, fun _ => ⟨⟨h, rfl⟩, rfl⟩, fun _ => hres⟩
      · intro hco
        rw [hres] at hco
        simp at hco
      · rintro ⟨e, he⟩
        simp at he
    | false =>
      have hres : append C false xs v = .ok (xs ++ [h]) := by
        rw [ha]
        rfl
      refine ⟨⟨?_, ?_⟩, ?_, ?_⟩
      · intro hco
        rw [hres] at hco
        simp at hco
      · rintro ⟨e, he⟩
        simp at he
      · intro hco
        rw [hres] at hco
        simp at hco
      · rintro ⟨-, hf⟩
        exact absurd hf (by simp)

/-- Witness for C8: with the host append primitive failing, appending an
`int` (whose conversion succeeds) fails with `RuntimeOperationError`. -/
theorem append_error_witness :
    append intCaster true [] (0 : Int) = .error .RuntimeOperationError :=
  ((append_error_spec intCaster intCaster_wf true [] 0).2).mpr
    ⟨⟨PyObj.int 0, rfl⟩, rfl⟩

/-- C9: zero local recovery.  On each path — indexed read, append, iteration —
a failing sub-operation's error is returned unchanged to the caller, and a
succeeding sub-operation's result is handed on unmodified: no catch, no retry,
no default value. -/
theorem error_propagation_spec (cast : PyObj → Except PyErr α) (C : Caster β)
    (xs : List PyObj) (i : Nat) (e : PyErr) (v : β) (fails : Bool) :
    (pyList_GetItem xs (toSSize i) = .error e →
      indexed_get cast xs i = .error e) ∧
    (∀ o, pyList_GetItem xs (toSSize i) = .ok o →
      indexed_get cast xs i = cast o) ∧
    (C.toHandle v = .error e → append C fails xs v = .error e) ∧
    (∀ h, C.toHandle v = .ok h →
      append C fails xs v = pyList_Append fails xs h) ∧
    (∀ o rest, cast o = .error e → iterate cast (o :: rest) = ([], some e)) := by
  refine ⟨indexed_get_err cast xs i e, fun o => indexed_get_ok cast xs i o,
    ?_, ?_, ?_⟩
  · intro hto
    unfold append
    rw [hto]
  · intro h hto
    unfold append
    rw [hto]
  · intro o rest hco
    unfold iterate
    rw [hco]

/-- Witness for C9: a conversion error on the very first element aborts the
iteration with that error, yielding nothing. -/
theorem error_propagation_witness :
    iterate castInt [PyObj.str "x", PyObj.int 1] =
      ([], some .TypeConversionError) :=
  (error_propagation_spec castInt intCaster [] 0 .TypeConversionError 0
    false).2.2.2.2 (PyObj.str "x") [PyObj.int 1] rfl

/-- Characterization of a full traversal at the raw-element level, by
induction on the underlying list: the yielded prefix, its agreement with the
stored elements, and the position of a failure. -/
theorem iterate_run_aux (cast : PyObj → Except PyErr α) (xs : List PyObj)
    (ys : List α) (err : Option PyErr) (hrun : iterate cast xs = (ys, err)) :
    ys.length ≤ xs.length ∧
    (err = none → ys.length = xs.length) ∧
    (∀ (j : Nat) (a : α), ys[j]? = some a →
      ∃ o, xs[j]? = some o ∧ cast o = .ok a) ∧
    (∀ e, err = some e → ∃ o, xs[ys.length]? = some o ∧ cast o = .error e) := by
  induction xs generalizing ys err with
  | nil =>
    unfold iterate at hrun
    injection hrun with h1 h2
    subst h1
    subst h2
    refine ⟨by simp, fun _ => rfl, ?_, ?_⟩
    · intro j a ha
      simp at ha
    · intro e he
      simp at he
  | cons o rest ih =>
    rcases hco : cast o with e | a
    · have hit : iterate cast (o :: rest) = ([], some e) := by
        unfold iterate
        rw [hco]
      rw [hit] at hrun
      injection hrun with h1 h2
      subst h1
      subst h2
      refine ⟨by simp, by simp, ?_, ?_⟩
      · intro j a ha
        simp at ha
      · intro e' he'
        injection he' with he'
        subst he'
        exact ⟨o, by simp, hco⟩
    · rcases hrest : iterate cast rest with ⟨ys', err'⟩
      have hit : iterate cast (o :: rest) = (a :: ys', err') := by
        unfold iterate
        rw [hco, hrest]
      rw [hit] at hrun
      injection hrun with h1 h2
      subst h1
      subst h2
      obtain ⟨ih1, ih2, ih3, ih4⟩ := ih ys' err' hrest
      refine ⟨by simpa using ih1, ?_, ?_, ?_⟩
      · intro hn
        simp [ih2 hn]
      · intro j b hb
        cases j with
        | zero =>
          simp at hb
          subst hb
          exact ⟨o, by simp, hco⟩
        | succ j =>
          simp only [List.getElem?_cons_succ] at hb
          obtain ⟨o', ho', hc'⟩ := ih3 j b hb
          exact ⟨o', by simpa using ho', hc'⟩
      · intro e he
        obtain ⟨o', ho', hc'⟩ := ih4 e he
        refine ⟨o', ?_, hc'⟩
        simpa using ho'

/-- C4: a traversal from `begin()` to `end()` yields the elements in index
order under the same per-index conversion rule as `operator[]`: every yielded
element is the successful conversion of the stored element at its index (and
equals what `operator[]` returns there); a traversal with no failure yields
exactly `len` elements; a conversion failure surfaces exactly at the offending
element's index — after the valid preceding elements have already been
yielded — and equals the error `operator[]` reports at that index; with a
caster that fails only with `TypeConversionError`, that is the error
surfaced. -/
theorem iteration_spec (cast : PyObj → Except PyErr α) (xs : List PyObj)
    (ys : List α) (err : Option PyErr) (hrun : iterate cast xs = (ys, err)) :
    ys.length ≤ xs.length ∧
    (err = none → ys.length = xs.length) ∧
    (∀ (j : Nat) (a : α), ys[j]? = some a →
      ∃ o, xs[j]? = some o ∧ cast o = .ok a) ∧
    (∀ (j : Nat) (a : α), ys[j]? = some a → j < 2 ^ 63 →
      indexed_get cast xs j = .ok a) ∧
    (∀ e, err = some e → ∃ o, xs[ys.length]? = some o ∧ cast o = .error e) ∧
    (∀ e, err = some e → ys.length < 2 ^ 63 →
      ys.length < xs.length ∧ indexed_get cast xs ys.length = .error e) ∧
    (∀ e, err = some e →
      (∀ o e', cast o = .error e' → e' = .TypeConversionError) →
      e = .TypeConversionError) := by
  obtain ⟨h1, h2, h3, h4⟩ := iterate_run_aux cast xs ys err hrun
  refine ⟨h1, h2, h3, ?_, h4, ?_, ?_⟩
  · intro j a ha h63
    obtain ⟨o, ho, hc⟩ := h3 j a ha
    rw [indexed_get_getElem cast xs j o ho h63]
    exact hc
  · intro e he h63
    obtain ⟨o, ho, hc⟩ := h4 e he
    refine ⟨(List.getElem?_eq_some.mp ho).1, ?_⟩
    rw [indexed_get_getElem cast xs ys.length o ho h63]
    exact hc
  · intro e he hwf
    obtain ⟨o, _, hc⟩ := h4 e he
    exact hwf o e hc

/-- Witness for C4: traversing `[1, "x", 3]` with `T = int` yields `1`, then
fails with the conversion error exactly at index 1, which is also what
`operator[]` reports there. -/
theorem iteration_witness :
    indexed_get castInt [PyObj.int 1, PyObj.str "x", PyObj.int 3] 0 = .ok 1 ∧
    indexed_get castInt [PyObj.int 1, PyObj.str "x", PyObj.int 3] 1 =
      .error .TypeConversionError :=
  ⟨(iteration_spec castInt [PyObj.int 1, PyObj.str "x", PyObj.int 3] [1]
      (some .TypeConversionError) rfl).2.2.2.1 0 1 rfl (by decide),
   ((iteration_spec castInt [PyObj.int 1, PyObj.str "x", PyObj.int 3] [1]
      (some .TypeConversionError) rfl).2.2.2.2.2.1 .TypeConversionError rfl
      (by decide)).2⟩
